import Mathlib

/-!
Verification of the byte-stream MIDI parser (`src/parser.rs`) of the
`embedded_midi` crate.

The parser state machine and its per-byte transition function
`parse_byte` are embedded shallowly: the Rust `enum MidiParserState`
becomes an inductive type, `MidiParser::parse_byte(&mut self, byte)`
becomes a pure function `parse_byte : MidiParserState → Nat →
MidiParserState × Option MidiEvent` returning the updated state and the
optional event, with bytes represented as natural numbers and the bit
masks written with `&&&` exactly as in the source.
-/

/-- Modelled from the spec: the event type `MidiEvent` lives at the crate
root, outside `src/`, and is opaque to this core; per the spec it is a
closed tagged variant with three cases — NoteOn(channel, note, velocity),
NoteOff(channel, note, velocity), ControllerChange(channel, controller,
value) — each an unsigned 8-bit quantity, built by the factory calls
`note_on`, `note_off`, `controller_change` that merely store their
arguments. -/
inductive MidiEvent : Type where
  | note_on (channel note velocity : Nat)
  | note_off (channel note velocity : Nat)
  | controller_change (channel controller value : Nat)
deriving DecidableEq, Repr

/-- The channel field of an event (same position in each variant). -/
def MidiEvent.channel : MidiEvent → Nat
  | .note_on c _ _ => c
  | .note_off c _ _ => c
  | .controller_change c _ _ => c

/-- Rust `enum MidiParserState` from `src/parser.rs`, one constructor per
variant, fields in source order. -/
inductive MidiParserState : Type where
  | Idle
  | NoteOnRecvd (channel : Nat)
  | NoteOnNoteRecvd (channel : Nat) (note : Nat)
  | NoteOffRecvd (channel : Nat)
  | NoteOffNoteRecvd (channel : Nat) (note : Nat)
  | ControlChangeRecvd (channel : Nat)
  | ControlChangeControllerRecvd (channel : Nat) (controller : Nat)
deriving DecidableEq, Repr

/-- Rust `fn is_status_byte(byte: u8) -> bool { byte & 0x80 == 0x80 }`. -/
def is_status_byte (byte : Nat) : Bool :=
  byte &&& 0x80 == 0x80

/-- Rust `fn split_message_and_channel(byte: u8) -> (u8, u8)`:
`(byte & 0xf0, byte & 0x0f)`. -/
def split_message_and_channel (byte : Nat) : Nat × Nat :=
  (byte &&& 0xf0, byte &&& 0x0f)

/-- Rust `MidiParser::parse_byte`. The Rust method mutates `self.state`
and returns `Option<MidiEvent>`; here the state is passed and returned
explicitly. Branches follow the source: a status byte dispatches on the
message nibble (0x80 Note-Off, 0x90 Note-On, 0xB0 Control-Change, any
other nibble falls through leaving the state untouched); a data byte
advances the in-flight message, the wildcard arm covering `Idle`. -/
def parse_byte (state : MidiParserState) (byte : Nat) :
    MidiParserState × Option MidiEvent :=
  if is_status_byte byte then
    let mc := split_message_and_channel byte
    let message := mc.1
    let channel := mc.2
    if message = 0x80 then
      (MidiParserState.NoteOffRecvd channel, none)
    else if message = 0x90 then
      (MidiParserState.NoteOnRecvd channel, none)
    else if message = 0xB0 then
      (MidiParserState.ControlChangeRecvd channel, none)
    else
      (state, none)
  else
    match state with
    | MidiParserState.NoteOnRecvd channel =>
        (MidiParserState.NoteOnNoteRecvd channel byte, none)
    | MidiParserState.NoteOnNoteRecvd channel note =>
        (MidiParserState.NoteOnRecvd channel,
          some (MidiEvent.note_on channel note byte))
    | MidiParserState.NoteOffRecvd channel =>
        (MidiParserState.NoteOffNoteRecvd channel byte, none)
    | MidiParserState.NoteOffNoteRecvd channel note =>
        (MidiParserState.NoteOffRecvd channel,
          some (MidiEvent.note_off channel note byte))
    | MidiParserState.ControlChangeRecvd channel =>
        (MidiParserState.ControlChangeControllerRecvd channel byte, none)
    | MidiParserState.ControlChangeControllerRecvd channel controller =>
        (MidiParserState.ControlChangeRecvd channel,
          some (MidiEvent.controller_change channel controller byte))
    | _ => (state, none)

/-- Rust `MidiParser::new()`: the parser starts in `Idle`. -/
def MidiParser.new : MidiParserState :=
  MidiParserState.Idle

/-- The per-call results of feeding a byte sequence: one `Option MidiEvent`
per call to `parse_byte`, in order (the caller loop of the test helper
`assert_result`, before its `filter_map`). -/
def parse_trace (state : MidiParserState) : List Nat → List (Option MidiEvent)
  | [] => []
  | b :: rest =>
      let r := parse_byte state b
      r.2 :: parse_trace r.1 rest

/-- Final state and collected events of feeding a byte sequence (the test
helper `assert_result` collects exactly the `Some` results, in order). -/
def parse_bytes (state : MidiParserState) : List Nat → MidiParserState × List MidiEvent
  | [] => (state, [])
  | b :: rest =>
      let r := parse_byte state b
      let rr := parse_bytes r.1 rest
      (rr.1, r.2.toList ++ rr.2)

/-- Every non-`Idle` state stores a channel below 16. -/
def state_channels_ok : MidiParserState → Bool
  | MidiParserState.Idle => true
  | MidiParserState.NoteOnRecvd c => c < 16
  | MidiParserState.NoteOnNoteRecvd c _ => c < 16
  | MidiParserState.NoteOffRecvd c => c < 16
  | MidiParserState.NoteOffNoteRecvd c _ => c < 16
  | MidiParserState.ControlChangeRecvd c => c < 16
  | MidiParserState.ControlChangeControllerRecvd c _ => c < 16

lemma is_status_byte_false {b : Nat} (hb : b &&& 0x80 = 0) :
    is_status_byte b = false := by
  simp [is_status_byte, hb]

lemma is_status_byte_true {b : Nat} (hb : b &&& 0x80 = 0x80) :
    is_status_byte b = true := by
  simp [is_status_byte, hb]

/-- C1: while awaiting the second parameter for kind K, channel C, first
parameter P1, a data byte b (b &&& 0x80 = 0) yields `some` event of kind K
with fields (C, P1, b) and moves the parser back to the
awaiting-first-parameter state of the same kind and channel (not Idle),
for each of the three kinds NoteOn, NoteOff, ControlChange. -/
theorem parse_byte_second_param_emits (C P1 b : Nat) (hb : b &&& 0x80 = 0) :
    parse_byte (MidiParserState.NoteOnNoteRecvd C P1) b =
      (MidiParserState.NoteOnRecvd C, some (MidiEvent.note_on C P1 b)) ∧
    parse_byte (MidiParserState.NoteOffNoteRecvd C P1) b =
      (MidiParserState.NoteOffRecvd C, some (MidiEvent.note_off C P1 b)) ∧
    parse_byte (MidiParserState.ControlChangeControllerRecvd C P1) b =
      (MidiParserState.ControlChangeRecvd C,
        some (MidiEvent.controller_change C P1 b)) := by
  refine ⟨?_, ?_, ?_⟩ <;> simp [parse_byte, is_status_byte_false hb]

/-- Witness for C1 at C = 2, P1 = 0x76, b = 0x34. -/
theorem parse_byte_second_param_emits_witness :
    parse_byte (MidiParserState.NoteOnNoteRecvd 2 0x76) 0x34 =
      (MidiParserState.NoteOnRecvd 2, some (MidiEvent.note_on 2 0x76 0x34)) ∧
    parse_byte (MidiParserState.NoteOffNoteRecvd 2 0x76) 0x34 =
      (MidiParserState.NoteOffRecvd 2, some (MidiEvent.note_off 2 0x76 0x34)) ∧
    parse_byte (MidiParserState.ControlChangeControllerRecvd 2 0x76) 0x34 =
      (MidiParserState.ControlChangeRecvd 2,
        some (MidiEvent.controller_change 2 0x76 0x34)) :=
  parse_byte_second_param_emits 2 0x76 0x34 (by decide)

/-- C3: feeding [0x92, 0x76, 0x34, 0x33, 0x65] to a fresh parser yields,
call by call, none, none, NoteOn(2, 0x76, 0x34), none,
NoteOn(2, 0x33, 0x65): exactly two events via running status, every other
call returning none. -/
theorem parse_running_status_note_on :
    parse_trace MidiParser.new [0x92, 0x76, 0x34, 0x33, 0x65] =
      [none, none, some (MidiEvent.note_on 2 0x76 0x34), none,
        some (MidiEvent.note_on 2 0x33 0x65)] := by
  decide

/-- C4: feeding [0x92, 0x1b, 0x82, 0x76, 0x34] to a fresh parser yields
exactly one event, NoteOff(2, 0x76, 0x34), on the final call: the
incomplete Note-On started by 0x92 0x1b is discarded by the supported
status byte 0x82 and never emitted. -/
theorem parse_interrupted_message_discarded :
    parse_trace MidiParser.new [0x92, 0x1b, 0x82, 0x76, 0x34] =
      [none, none, none, none, some (MidiEvent.note_off 2 0x76 0x34)] := by
  decide

/-- C6: a data byte received in the Idle state returns none and leaves the
state at Idle. -/
theorem parse_byte_idle_data (b : Nat) (hb : b &&& 0x80 = 0) :
    parse_byte MidiParserState.Idle b = (MidiParserState.Idle, none) := by
  simp [parse_byte, is_status_byte_false hb]

/-- Witness for C6 at b = 0x34. -/
theorem parse_byte_idle_data_witness :
    parse_byte MidiParserState.Idle 0x34 = (MidiParserState.Idle, none) :=
  parse_byte_idle_data 0x34 (by decide)

/-- C8: is_status_byte b is true exactly when b &&& 0x80 = 0x80, for every
byte b below 256. -/
theorem is_status_byte_spec (b : Nat) (hb : b < 256) :
    is_status_byte b = true ↔ b &&& 0x80 = 0x80 := by
  simp [is_status_byte]

/-- Witness for C8 at b = 0x94. -/
theorem is_status_byte_spec_witness : is_status_byte 0x94 = true :=
  (is_status_byte_spec 0x94 (by decide)).mpr (by decide)

/-- C5: every status byte returns none, and a supported message nibble
(0x80, 0x90, 0xB0) moves the parser to the awaiting-first-parameter state
of kind NoteOff, NoteOn, ControlChange respectively, with channel
b &&& 0x0F. -/
theorem parse_byte_status_dispatch (s : MidiParserState) (b : Nat)
    (hb : b &&& 0x80 = 0x80) :
    (parse_byte s b).2 = none ∧
    (b &&& 0xF0 = 0x80 →
      (parse_byte s b).1 = MidiParserState.NoteOffRecvd (b &&& 0x0F)) ∧
    (b &&& 0xF0 = 0x90 →
      (parse_byte s b).1 = MidiParserState.NoteOnRecvd (b &&& 0x0F)) ∧
    (b &&& 0xF0 = 0xB0 →
      (parse_byte s b).1 = MidiParserState.ControlChangeRecvd (b &&& 0x0F)) := by
  refine ⟨?_, ?_, ?_, ?_⟩
  · simp only [parse_byte, is_status_byte_true hb, if_true]
    split_ifs <;> rfl
  all_goals
    intro h
    simp [parse_byte, is_status_byte_true hb, split_message_and_channel, h]

/-- Witness for C5 at s = Idle, b = 0x92. -/
theorem parse_byte_status_dispatch_witness :
    (parse_byte MidiParserState.Idle 0x92).1 = MidiParserState.NoteOnRecvd 2 :=
  (parse_byte_status_dispatch MidiParserState.Idle 0x92 (by decide)).2.2.1
    (by decide)

/-- C2 counterexample: with an in-flight Note-On (channel 2, stored first
parameter 0x1b), the status byte 0xA0 (top bit set, unsupported nibble)
leaves the state exactly as it was — still carrying the stored parameter
byte — and the next data byte 0x34 completes the message and produces an
event, contradicting both the unconditional-discard and the
inert-state parts of the claim. -/
theorem status_discard_counterexample :
    is_status_byte 0xA0 = true ∧
    parse_byte (MidiParserState.NoteOnNoteRecvd 2 0x1b) 0xA0 =
      (MidiParserState.NoteOnNoteRecvd 2 0x1b, none) ∧
    (parse_byte (parse_byte (MidiParserState.NoteOnNoteRecvd 2 0x1b) 0xA0).1
        0x34).2 = some (MidiEvent.note_on 2 0x1b 0x34) := by
  decide

/-- C2 amended: a supported status byte (nibble 0x80, 0x90 or 0xB0)
unconditionally discards any in-flight message, moving to the
corresponding awaiting-first-parameter state that stores no parameter
bytes; an unsupported status byte is instead a no-op that leaves the
state exactly unchanged, so an in-flight message survives it. -/
theorem status_discard_amended (s : MidiParserState) (b : Nat)
    (hb : b &&& 0x80 = 0x80) :
    (b &&& 0xF0 = 0x80 →
      parse_byte s b = (MidiParserState.NoteOffRecvd (b &&& 0x0F), none)) ∧
    (b &&& 0xF0 = 0x90 →
      parse_byte s b = (MidiParserState.NoteOnRecvd (b &&& 0x0F), none)) ∧
    (b &&& 0xF0 = 0xB0 →
      parse_byte s b = (MidiParserState.ControlChangeRecvd (b &&& 0x0F), none)) ∧
    (b &&& 0xF0 ≠ 0x80 → b &&& 0xF0 ≠ 0x90 → b &&& 0xF0 ≠ 0xB0 →
      parse_byte s b = (s, none)) := by
  refine ⟨?_, ?_, ?_, ?_⟩
  · intro h
    simp [parse_byte, is_status_byte_true hb, split_message_and_channel, h]
  · intro h
    simp [parse_byte, is_status_byte_true hb, split_message_and_channel, h]
  · intro h
    simp [parse_byte, is_status_byte_true hb, split_message_and_channel, h]
  · intro h1 h2 h3
    simp [parse_byte, is_status_byte_true hb, split_message_and_channel,
      h1, h2, h3]

/-- Witness for the amended C2 at s = NoteOnNoteRecvd 2 0x1b, b = 0xA0. -/
theorem status_discard_amended_witness :
    parse_byte (MidiParserState.NoteOnNoteRecvd 2 0x1b) 0xA0 =
      (MidiParserState.NoteOnNoteRecvd 2 0x1b, none) :=
  (status_discard_amended (MidiParserState.NoteOnNoteRecvd 2 0x1b) 0xA0
    (by decide)).2.2.2 (by decide) (by decide) (by decide)

/-- C7: parse_byte is total — for every state and every byte below 256 it
returns a well-defined state/result pair, the result is either none or
some single event, and never more than one event per call. -/
theorem parse_byte_total (s : MidiParserState) (b : Nat) (hb : b < 256) :
    (∃ st o, parse_byte s b = (st, o)) ∧
    ((parse_byte s b).2 = none ∨ ∃ e, (parse_byte s b).2 = some e) ∧
    (parse_byte s b).2.toList.length ≤ 1 := by
  refine ⟨⟨(parse_byte s b).1, (parse_byte s b).2, rfl⟩, ?_, ?_⟩
  · cases h : (parse_byte s b).2
    · exact Or.inl rfl
    · exact Or.inr ⟨_, rfl⟩
  · cases (parse_byte s b).2 <;> simp

/-- Witness for C7 at s = Idle, b = 0. -/
theorem parse_byte_total_witness :
    (parse_byte MidiParserState.Idle 0).2.toList.length ≤ 1 :=
  (parse_byte_total MidiParserState.Idle 0 (by decide)).2.2

/-- C10: an unsupported status byte (top bit set, nibble outside
{0x80, 0x90, 0xB0}) is a strict no-op — parse_byte returns none and the
state is exactly what it was, so an in-flight message survives; in
particular [0x92, 0x1b, 0xA0, 0x34] from a fresh parser yields exactly
one event, NoteOn(2, 0x1b, 0x34), on the final call. -/
theorem unsupported_status_noop (s : MidiParserState) (b : Nat)
    (hb : b &&& 0x80 = 0x80) (h1 : b &&& 0xF0 ≠ 0x80)
    (h2 : b &&& 0xF0 ≠ 0x90) (h3 : b &&& 0xF0 ≠ 0xB0) :
    parse_byte s b = (s, none) ∧
    parse_trace MidiParser.new [0x92, 0x1b, 0xA0, 0x34] =
      [none, none, none, some (MidiEvent.note_on 2 0x1b 0x34)] := by
  constructor
  · simp [parse_byte, is_status_byte_true hb, split_message_and_channel,
      h1, h2, h3]
  · decide

/-- Witness for C10 at s = Idle, b = 0xA0. -/
theorem unsupported_status_noop_witness :
    parse_byte MidiParserState.Idle 0xA0 = (MidiParserState.Idle, none) ∧
    parse_trace MidiParser.new [0x92, 0x1b, 0xA0, 0x34] =
      [none, none, none, some (MidiEvent.note_on 2 0x1b 0x34)] :=
  unsupported_status_noop MidiParserState.Idle 0xA0 (by decide) (by decide)
    (by decide) (by decide)

lemma state_channels_ok_step (s : MidiParserState) (b : Nat)
    (hs : state_channels_ok s = true) :
    state_channels_ok (parse_byte s b).1 = true := by
  have h15 : b &&& 0x0f < 16 := Nat.lt_succ_of_le Nat.and_le_right
  by_cases hb : is_status_byte b = true
  · simp only [parse_byte, hb, if_true, split_message_and_channel]
    split_ifs <;> first
      | exact hs
      | simp [state_channels_ok, h15]
  · cases s <;> simp_all [parse_byte, state_channels_ok]

lemma event_channel_step (s : MidiParserState) (b : Nat)
    (hs : state_channels_ok s = true) (e : MidiEvent)
    (he : (parse_byte s b).2 = some e) :
    e.channel < 16 := by
  by_cases hb : is_status_byte b = true
  · exfalso
    simp only [parse_byte, hb, if_true, split_message_and_channel] at he
    split_ifs at he <;> simp_all
  · cases s with
    | Idle => simp [parse_byte, hb] at he
    | NoteOnRecvd c => simp [parse_byte, hb] at he
    | NoteOffRecvd c => simp [parse_byte, hb] at he
    | ControlChangeRecvd c => simp [parse_byte, hb] at he
    | NoteOnNoteRecvd c n =>
        simp only [parse_byte, hb, if_false, Bool.false_eq_true,
          Option.some.injEq] at he
        subst he
        simpa [MidiEvent.channel] using
          (by simpa [state_channels_ok] using hs : c < 16)
    | NoteOffNoteRecvd c n =>
        simp only [parse_byte, hb, if_false, Bool.false_eq_true,
          Option.some.injEq] at he
        subst he
        simpa [MidiEvent.channel] using
          (by simpa [state_channels_ok] using hs : c < 16)
    | ControlChangeControllerRecvd c n =>
        simp only [parse_byte, hb, if_false, Bool.false_eq_true,
          Option.some.injEq] at he
        subst he
        simpa [MidiEvent.channel] using
          (by simpa [state_channels_ok] using hs : c < 16)

lemma parse_bytes_channels_ok (bytes : List Nat) :
    ∀ s, state_channels_ok s = true →
      state_channels_ok (parse_bytes s bytes).1 = true ∧
      ∀ e ∈ (parse_bytes s bytes).2, e.channel < 16 := by
  induction bytes with
  | nil =>
      intro s hs
      simpa [parse_bytes] using hs
  | cons b rest ih =>
      intro s hs
      have hstep := state_channels_ok_step s b hs
      obtain ⟨hfin, hevs⟩ := ih (parse_byte s b).1 hstep
      refine ⟨by simpa [parse_bytes] using hfin, ?_⟩
      intro e he
      simp only [parse_bytes, List.mem_append, Option.mem_toList,
        Option.mem_def] at he
      rcases he with he | he
      · exact event_channel_step s b hs e he
      · exact hevs e he

/-- C9: for every input byte sequence fed from a fresh parser, every
reachable parser state stores only channel values below 16 (quantifying
over all byte lists covers every reachable intermediate state, each being
the final state of some prefix), and every emitted event carries a
channel value below 16. -/
theorem parser_channel_invariant (bytes : List Nat) :
    state_channels_ok (parse_bytes MidiParser.new bytes).1 = true ∧
    ∀ e ∈ (parse_bytes MidiParser.new bytes).2, MidiEvent.channel e < 16 :=
  parse_bytes_channels_ok bytes MidiParser.new rfl

/-- Witness for C9 on the bytes [0x92, 0x76, 0x34] and the event they
produce. -/
theorem parser_channel_invariant_witness :
    state_channels_ok (parse_bytes MidiParser.new [0x92, 0x76, 0x34]).1 = true ∧
    MidiEvent.channel (MidiEvent.note_on 2 0x76 0x34) < 16 :=
  ⟨(parser_channel_invariant [0x92, 0x76, 0x34]).1,
   (parser_channel_invariant [0x92, 0x76, 0x34]).2
     (MidiEvent.note_on 2 0x76 0x34) (by decide)⟩
